import Mathlib

/-!
Verification of the RISC-V runtime code-specialization subsystem:
the runtime-constant immediate fixups of
arch/riscv/include/asm/runtime-const.h and the MIPS vendor errata
dispatcher of arch/riscv/errata/mips/errata.c.

Machine integers are embedded as Nat with explicit reduction modulo
2 ^ 32 (or 2 ^ 64) where the C code relies on fixed-width wraparound.
Instruction words are 32-bit little-endian values already converted by
le32_to_cpu, so they appear here simply as Nat values below 2 ^ 32.
-/

namespace RiscvPatch

/-! ### Definitions: the 32-bit immediate fixup (__runtime_fixup_32) -/

/-- Modelled from the spec: the kernel helper sign_extend32(value, index)
(declared outside src/) sign-extends bit number index of value into all
higher bits of a 32-bit word; the result is the unsigned 32-bit pattern of
that sign extension, so the low index+1 bits of value are kept and the
bits above them are all ones exactly when bit index of value is set. -/
def sign_extend32 (value index : Nat) : Nat :=
  if value.testBit index then
    value % 2 ^ (index + 1) ||| (2 ^ 32 - 2 ^ (index + 1))
  else
    value % 2 ^ (index + 1)

/-- lower_immediate = sign_extend32(val, 11) in __runtime_fixup_32,
held in a C unsigned int. -/
def lower_immediate (val : Nat) : Nat := sign_extend32 val 11

/-- upper_immediate = (val - lower_immediate) in __runtime_fixup_32:
32-bit unsigned wraparound subtraction. -/
def upper_immediate (val : Nat) : Nat :=
  (val + 2 ^ 32 - lower_immediate val) % 2 ^ 32

/-- The lui word produced by __runtime_fixup_32: if the upper immediate
has any of the top 20 bits set, the top 20 bits of the lui instruction are
replaced by the upper immediate, otherwise the lui is replaced by the nop
encoding 0x00000013. -/
def fixup_32_lui (lui_insn val : Nat) : Nat :=
  if upper_immediate val &&& 0xfffff000 ≠ 0 then
    lui_insn &&& 0x00000fff ||| (upper_immediate val &&& 0xfffff000)
  else
    0x00000013

/-- The addi word produced by __runtime_fixup_32: if the low 12 bits of
the lower immediate are not all zero, the top 12 bits of the addi
instruction are replaced by them, otherwise the addi is replaced by the
nop encoding 0x00000013. -/
def fixup_32_addi (addi_insn val : Nat) : Nat :=
  if lower_immediate val &&& 0x00000fff ≠ 0 then
    addi_insn &&& 0x000fffff ||| (lower_immediate val &&& 0x00000fff) <<< 20
  else
    0x00000013

/-- The fixup __runtime_fixup_32(lui, addi, val): the pair of instruction words
written back over the lui and addi slots of a patch site. -/
def __runtime_fixup_32 (lui_insn addi_insn val : Nat) : Nat × Nat :=
  (fixup_32_lui lui_insn val, fixup_32_addi addi_insn val)

/-- Modelled from the spec: the decoder of a lui+addi pair (the inverse
direction of §4.1 of the spec, not present in src/). The lui instruction
holds the upper 20 bits of the immediate in its top 20 bits; the addi
instruction holds the low 12 bits, sign extended at execution, in its top
12 bits; a nop (0x00000013) contributes nothing. The materialized value
is their 32-bit sum. -/
def decode_lui_addi (lui_insn addi_insn : Nat) : Nat :=
  ((if lui_insn = 0x00000013 then 0 else lui_insn &&& 0xfffff000) +
   (if addi_insn = 0x00000013 then 0 else sign_extend32 (addi_insn >>> 20) 11)) % 2 ^ 32

/-! ### Definitions: the pointer fixup (__runtime_fixup_ptr, 64-bit target) -/

/-- The fixup __runtime_fixup_ptr(where, val) on a wide (64-bit) target: the four
instruction words of the site sit at byte offsets 0, 4, 8 and 12 of
where. The C code calls __runtime_fixup_32(where, where + 8, val), whose
unsigned int parameter truncates val to its low 32 bits, and
__runtime_fixup_32(where + 4, where + 12, val >> 32). The result tuple
holds the new words at offsets 0, 4, 8 and 12 in that order. -/
def __runtime_fixup_ptr (w0 w4 w8 w12 val : Nat) : Nat × Nat × Nat × Nat :=
  ((__runtime_fixup_32 w0 w8 (val % 2 ^ 32)).1,
   (__runtime_fixup_32 w4 w12 (val >>> 32 % 2 ^ 32)).1,
   (__runtime_fixup_32 w0 w8 (val % 2 ^ 32)).2,
   (__runtime_fixup_32 w4 w12 (val >>> 32 % 2 ^ 32)).2)

/-! ### Definitions: the shift fixup (__runtime_fixup_shift) -/

/-- The fixup __runtime_fixup_shift(where, val): clears bits 20-24 of the
instruction word and ors in the low 5 bits of val at bit 20. -/
def __runtime_fixup_shift (insn val : Nat) : Nat :=
  insn &&& 0xfe0fffff ||| (val &&& 0b11111) <<< 20

/-! ### Definitions: the runtime-constant patch-site table walk -/

/-- runtime_const_fixup(fn, val, start, end) walks the array of s32
records from start to end; for each record it invokes
fn(*start + (void *)start, val), the site address being the record's own
location plus the signed offset stored in it, then advances to the next
4-byte record. Embedded with mem giving the s32 record stored at each
table address, start the address of the first record and n the number of
records in [start, end) (records are 4 bytes apart, so end = start + 4n);
the result is the ordered list of (site, value) invocations of fn. -/
def runtime_const_fixup (mem : Int → Int) (val : Nat) : Int → Nat → List (Int × Nat)
  | _, 0 => []
  | start, n + 1 => (start + mem start, val) :: runtime_const_fixup mem val (start + 4) n

/-! ### Definitions: the MIPS vendor errata dispatcher -/

/-- Modelled from the spec: one alternative-site record (struct alt_entry
of asm/alternative.h, which is outside src/). old_ptr and alt_ptr stand
for the resolved ALT_OLD_PTR and ALT_ALT_PTR addresses of the original
and replacement instruction blocks (the record stores them as
self-relative offsets), vendor_id and patch_id are the record's CPU
vendor identifier and erratum index, and alt_len is the declared
replacement length in bytes. -/
structure alt_entry where
  old_ptr : Nat
  alt_ptr : Nat
  vendor_id : Nat
  patch_id : Nat
  alt_len : Nat
deriving DecidableEq

/-- The externally observable effects of one dispatcher run: the ordered
list of patch_text_nosync writes, each a (destination, source, length)
triple, and the ordered list of warned-about erratum indices. -/
structure PatchEffects where
  writes : List (Nat × Nat × Nat)
  warns : List Nat
deriving DecidableEq

/-- The per-record loop of mips_errata_patch_func: records whose
vendor_id differs from MIPS_VENDOR_ID are skipped, matching records with
patch_id >= ERRATA_MIPS_NUMBER produce one warning and no write, and
every other matching record produces one
patch_text_nosync(ALT_OLD_PTR(alt), ALT_ALT_PTR(alt), alt->alt_len)
write. -/
def mips_errata_loop (vendor_id errata_number : Nat) : List alt_entry → PatchEffects
  | [] => ⟨[], []⟩
  | alt :: rest =>
    if alt.vendor_id ≠ vendor_id then mips_errata_loop vendor_id errata_number rest
    else if errata_number ≤ alt.patch_id then
      ⟨(mips_errata_loop vendor_id errata_number rest).writes,
        alt.patch_id :: (mips_errata_loop vendor_id errata_number rest).warns⟩
    else
      ⟨(alt.old_ptr, alt.alt_ptr, alt.alt_len) ::
          (mips_errata_loop vendor_id errata_number rest).writes,
        (mips_errata_loop vendor_id errata_number rest).warns⟩

/-- mips_errata_patch_func(begin, end, archid, impid, stage): returns
immediately at the early-boot stage, otherwise runs the per-record loop.
vendor_id, errata_number and early_boot are parameters standing for the
constants MIPS_VENDOR_ID, ERRATA_MIPS_NUMBER and
RISCV_ALTERNATIVES_EARLY_BOOT, whose definitions live in headers outside
src/; archid and impid are accepted, as in the C signature, and never
read. -/
def mips_errata_patch_func (vendor_id errata_number early_boot : Nat)
    (table : List alt_entry) (archid impid stage : Nat) : PatchEffects :=
  if stage = early_boot then ⟨[], []⟩
  else mips_errata_loop vendor_id errata_number table

/-- A memory write as performed by patch_text_nosync(dst, src, len):
byte a of the result reads from the replacement block when a falls in
[dst, dst + len) and from the untouched memory otherwise. -/
def patch_text_nosync (mem : Nat → Nat) (dst src len : Nat) : Nat → Nat :=
  fun a => if dst ≤ a ∧ a < dst + len then mem (src + (a - dst)) else mem a

/-- Applying a list of writes to a memory, in order. -/
def apply_writes (mem : Nat → Nat) : List (Nat × Nat × Nat) → (Nat → Nat)
  | [] => mem
  | w :: ws => apply_writes (patch_text_nosync mem w.1 w.2.1 w.2.2) ws

/-! ### Generic bit-arithmetic helpers -/

/-! ### Generic bit-arithmetic helpers -/

theorem or_small_mul (a b k : Nat) (h : a < 2 ^ k) :
    a ||| b * 2 ^ k = a + b * 2 ^ k := by
  have h1 := Nat.mul_add_lt_is_or (i := k) (b := a) h b
  rw [Nat.lor_comm, Nat.mul_comm] at h1
  omega

theorem and_shifted_mask (x k m : Nat) :
    x &&& (2 ^ m - 1) * 2 ^ k = x / 2 ^ k % 2 ^ m * 2 ^ k := by
  have hl : (2 ^ m - 1) * 2 ^ k = (2 ^ m - 1) <<< k := by
    rw [Nat.shiftLeft_eq]
  have hr : x / 2 ^ k % 2 ^ m * 2 ^ k = (x >>> k % 2 ^ m) <<< k := by
    rw [Nat.shiftLeft_eq, Nat.shiftRight_eq_div_pow]
  rw [hl, hr]
  apply Nat.eq_of_testBit_eq
  intro j
  simp only [Nat.testBit_and, Nat.testBit_shiftLeft, Nat.testBit_shiftRight,
    Nat.testBit_mod_two_pow, Nat.testBit_two_pow_sub_one]
  by_cases hkj : k ≤ j
  · simp only [hkj, decide_True, Bool.true_and, Nat.add_sub_cancel' hkj]
    by_cases hm : j - k < m <;> simp [hm, Bool.and_comm]
  · simp [hkj]

theorem and_hex_fff (x : Nat) : x &&& 0x00000fff = x % 2 ^ 12 := by
  have h : (0x00000fff : Nat) = 2 ^ 12 - 1 := by norm_num
  rw [h, Nat.and_pow_two_sub_one_eq_mod]

theorem and_hex_fffff (x : Nat) : x &&& 0x000fffff = x % 2 ^ 20 := by
  have h : (0x000fffff : Nat) = 2 ^ 20 - 1 := by norm_num
  rw [h, Nat.and_pow_two_sub_one_eq_mod]

theorem and_hex_fffff000 (x : Nat) :
    x &&& 0xfffff000 = x / 2 ^ 12 % 2 ^ 20 * 2 ^ 12 := by
  have h : (0xfffff000 : Nat) = (2 ^ 20 - 1) * 2 ^ 12 := by norm_num
  rw [h, and_shifted_mask]

/-! ### Theorems on the 32-bit immediate fixup -/

theorem sign_extend32_11_eq (x : Nat) :
    sign_extend32 x 11 =
      if x / 2 ^ 11 % 2 = 1 then x % 2 ^ 12 + 0xfffff000 else x % 2 ^ 12 := by
  unfold sign_extend32
  rw [Nat.testBit_to_div_mod]
  simp only [decide_eq_true_eq]
  have h32 : (2 ^ 32 - 2 ^ (11 + 1) : Nat) = 0xfffff * 2 ^ 12 := by norm_num
  rw [h32, or_small_mul (x % 2 ^ (11 + 1)) 0xfffff 12 (by omega)]
  split_ifs with h <;> omega

/-- The low 12 bits of the lower immediate are exactly the low 12 bits of
the value. -/
theorem lower_and_fff (val : Nat) :
    lower_immediate val &&& 0x00000fff = val % 2 ^ 12 := by
  unfold lower_immediate
  rw [sign_extend32_11_eq, and_hex_fff]
  split_ifs <;> omega

/-- The upper immediate always has its low 12 bits clear, so masking it
with 0xfffff000 is the identity. -/
theorem upper_and_fffff000 (val : Nat) :
    upper_immediate val &&& 0xfffff000 = upper_immediate val := by
  unfold upper_immediate lower_immediate
  rw [sign_extend32_11_eq, and_hex_fffff000]
  split_ifs <;> omega

theorem upper_mod_4096 (val : Nat) : upper_immediate val % 2 ^ 12 = 0 := by
  unfold upper_immediate lower_immediate
  rw [sign_extend32_11_eq]
  split_ifs <;> omega

theorem upper_lt (val : Nat) : upper_immediate val < 2 ^ 32 := by
  unfold upper_immediate
  exact Nat.mod_lt _ (by norm_num)

/-- Arithmetic characterization of the lui word written by
__runtime_fixup_32. -/
theorem fixup_32_lui_eq (lui_insn val : Nat) :
    fixup_32_lui lui_insn val =
      if upper_immediate val = 0 then 0x00000013
      else lui_insn % 2 ^ 12 + upper_immediate val := by
  unfold fixup_32_lui
  rw [upper_and_fffff000, and_hex_fff, ite_not]
  by_cases h : upper_immediate val = 0
  · rw [if_pos h, if_pos h]
  · rw [if_neg h, if_neg h]
    have hdvd : upper_immediate val / 2 ^ 12 * 2 ^ 12 = upper_immediate val := by
      have := upper_mod_4096 val
      omega
    rw [← hdvd, or_small_mul _ _ _ (Nat.mod_lt lui_insn (by norm_num))]

/-- Arithmetic characterization of the addi word written by
__runtime_fixup_32. -/
theorem fixup_32_addi_eq (addi_insn val : Nat) :
    fixup_32_addi addi_insn val =
      if val % 2 ^ 12 = 0 then 0x00000013
      else addi_insn % 2 ^ 20 + val % 2 ^ 12 * 2 ^ 20 := by
  unfold fixup_32_addi
  rw [lower_and_fff, and_hex_fffff, ite_not]
  by_cases h : val % 2 ^ 12 = 0
  · rw [if_pos h, if_pos h]
  · rw [if_neg h, if_neg h, Nat.shiftLeft_eq,
      or_small_mul _ _ _ (Nat.mod_lt addi_insn (by norm_num))]

/-- Core round-trip lemma: decoding the pair written by
__runtime_fixup_32 recovers the 32-bit value. -/
theorem decode_fixup_32 (lui_insn addi_insn val : Nat) (hval : val < 2 ^ 32) :
    decode_lui_addi (fixup_32_lui lui_insn val) (fixup_32_addi addi_insn val) = val := by
  have hUmod := upper_mod_4096 val
  have hUval : upper_immediate val = (val + 2 ^ 32 -
      (if val / 2 ^ 11 % 2 = 1 then val % 2 ^ 12 + 0xfffff000 else val % 2 ^ 12)) % 2 ^ 32 := by
    unfold upper_immediate lower_immediate
    rw [sign_extend32_11_eq]
  rw [fixup_32_lui_eq, fixup_32_addi_eq]
  unfold decode_lui_addi
  by_cases hU0 : upper_immediate val = 0
  · rw [if_pos hU0, if_pos rfl]
    by_cases h12 : val % 2 ^ 12 = 0
    · rw [if_pos h12, if_pos rfl]
      split_ifs at hUval <;> omega
    · rw [if_neg h12]
      have hB13 : addi_insn % 2 ^ 20 + val % 2 ^ 12 * 2 ^ 20 ≠ 0x00000013 := by omega
      rw [if_neg hB13, Nat.shiftRight_eq_div_pow]
      have hBdiv : (addi_insn % 2 ^ 20 + val % 2 ^ 12 * 2 ^ 20) / 2 ^ 20 = val % 2 ^ 12 := by
        omega
      rw [hBdiv, sign_extend32_11_eq]
      split_ifs at hUval ⊢ <;> omega
  · rw [if_neg hU0]
    have hU13 : lui_insn % 2 ^ 12 + upper_immediate val ≠ 0x00000013 := by omega
    rw [if_neg hU13, and_hex_fffff000]
    have hUlt := upper_lt val
    have hAm : (lui_insn % 2 ^ 12 + upper_immediate val) / 2 ^ 12 % 2 ^ 20 * 2 ^ 12
        = upper_immediate val := by omega
    rw [hAm]
    by_cases h12 : val % 2 ^ 12 = 0
    · rw [if_pos h12, if_pos rfl]
      split_ifs at hUval <;> omega
    · rw [if_neg h12]
      have hB13 : addi_insn % 2 ^ 20 + val % 2 ^ 12 * 2 ^ 20 ≠ 0x00000013 := by omega
      rw [if_neg hB13, Nat.shiftRight_eq_div_pow]
      have hBdiv : (addi_insn % 2 ^ 20 + val % 2 ^ 12 * 2 ^ 20) / 2 ^ 20 = val % 2 ^ 12 := by
        omega
      rw [hBdiv, sign_extend32_11_eq]
      split_ifs at hUval ⊢ <;> omega

/-- Bit characterization of the srli/srliw mask: 0xfe0fffff keeps every
bit of a 32-bit word except bits 20-24. -/
theorem testBit_fe0fffff (i : Nat) :
    (0xfe0fffff : Nat).testBit i = (decide (i < 20) || decide (25 ≤ i ∧ i < 32)) := by
  by_cases h32 : i < 32
  · interval_cases i <;> decide
  · have hlt : (0xfe0fffff : Nat) < 2 ^ i :=
      Nat.lt_of_lt_of_le (by norm_num : (0xfe0fffff : Nat) < 2 ^ 32)
        (Nat.pow_le_pow_right (by norm_num) (by omega))
    rw [Nat.testBit_lt_two_pow hlt]
    have h1 : ¬ i < 20 := by omega
    have h2 : ¬ (25 ≤ i ∧ i < 32) := by omega
    simp [h1, h2]

theorem and_11111_lt (s : Nat) : s &&& 0b11111 < 32 := by
  have h : (0b11111 : Nat) = 2 ^ 5 - 1 := by norm_num
  rw [h, Nat.and_pow_two_sub_one_eq_mod]
  omega

/-! ### Claim theorems for the immediate fixups -/

/-- C1: for every 32-bit value v, decoding the lui/addi pair written by
__runtime_fixup_32 over any 32-bit lui and addi site words reproduces v
exactly (the edge cases v = 0, low-12-only, upper-20-only and bit 11 set
are instances of the universally quantified statement, exercised in the
witness). -/
theorem C1_fixup_32_roundtrip (lui_insn addi_insn val : Nat)
    (hlui : lui_insn < 2 ^ 32) (haddi : addi_insn < 2 ^ 32) (hval : val < 2 ^ 32) :
    decode_lui_addi (__runtime_fixup_32 lui_insn addi_insn val).1
      (__runtime_fixup_32 lui_insn addi_insn val).2 = val :=
  decode_fixup_32 lui_insn addi_insn val hval

/-- Witness for C1 at the edge cases named by the claim, over the actual
lui a0, 0x89abd / addi a0, a0, -0x211 placeholder words of
runtime_const_ptr: a generic value, 0, a low-12-only value, an
upper-20-only value, and a value with bit 11 set. -/
theorem C1_fixup_32_roundtrip_witness :
    ((0x89abd537 : Nat) < 2 ^ 32 ∧ (0xdef50513 : Nat) < 2 ^ 32 ∧ (0x12345678 : Nat) < 2 ^ 32 ∧
      decode_lui_addi (__runtime_fixup_32 0x89abd537 0xdef50513 0x12345678).1
        (__runtime_fixup_32 0x89abd537 0xdef50513 0x12345678).2 = 0x12345678) ∧
    (decode_lui_addi (__runtime_fixup_32 0x89abd537 0xdef50513 0).1
        (__runtime_fixup_32 0x89abd537 0xdef50513 0).2 = 0) ∧
    (decode_lui_addi (__runtime_fixup_32 0x89abd537 0xdef50513 0xfff).1
        (__runtime_fixup_32 0x89abd537 0xdef50513 0xfff).2 = 0xfff) ∧
    (decode_lui_addi (__runtime_fixup_32 0x89abd537 0xdef50513 0xfffff000).1
        (__runtime_fixup_32 0x89abd537 0xdef50513 0xfffff000).2 = 0xfffff000) ∧
    (decode_lui_addi (__runtime_fixup_32 0x89abd537 0xdef50513 0x800).1
        (__runtime_fixup_32 0x89abd537 0xdef50513 0x800).2 = 0x800) :=
  ⟨⟨by decide, by decide, by decide,
      C1_fixup_32_roundtrip 0x89abd537 0xdef50513 0x12345678 (by decide) (by decide) (by decide)⟩,
    C1_fixup_32_roundtrip 0x89abd537 0xdef50513 0 (by decide) (by decide) (by decide),
    C1_fixup_32_roundtrip 0x89abd537 0xdef50513 0xfff (by decide) (by decide) (by decide),
    C1_fixup_32_roundtrip 0x89abd537 0xdef50513 0xfffff000 (by decide) (by decide) (by decide),
    C1_fixup_32_roundtrip 0x89abd537 0xdef50513 0x800 (by decide) (by decide) (by decide)⟩

/-- C7: when the upper immediate has no bit set in its top 20 bits the
lui slot is written as the nop 0x00000013, when the low 12 bits of the
lower immediate are all zero the addi slot is written as the nop, and in
both cases the patched pair still materializes exactly v. -/
theorem C7_fixup_32_nop (lui_insn addi_insn val : Nat) (hval : val < 2 ^ 32) :
    (upper_immediate val &&& 0xfffff000 = 0 →
      (__runtime_fixup_32 lui_insn addi_insn val).1 = 0x00000013) ∧
    (lower_immediate val &&& 0x00000fff = 0 →
      (__runtime_fixup_32 lui_insn addi_insn val).2 = 0x00000013) ∧
    decode_lui_addi (__runtime_fixup_32 lui_insn addi_insn val).1
      (__runtime_fixup_32 lui_insn addi_insn val).2 = val := by
  refine ⟨fun h => ?_, fun h => ?_, decode_fixup_32 lui_insn addi_insn val hval⟩
  · show fixup_32_lui lui_insn val = 0x00000013
    unfold fixup_32_lui
    rw [if_neg (fun hc => hc h)]
  · show fixup_32_addi addi_insn val = 0x00000013
    unfold fixup_32_addi
    rw [if_neg (fun hc => hc h)]

/-- Witness for C7: value 0x7ff forces the lui nop (its upper immediate
is zero) and value 0x1000 forces the addi nop (its lower immediate is
zero); both hypotheses and both nop conditions evaluate concretely. -/
theorem C7_fixup_32_nop_witness :
    ((0x7ff : Nat) < 2 ^ 32 ∧ upper_immediate 0x7ff &&& 0xfffff000 = 0 ∧
      ((upper_immediate 0x7ff &&& 0xfffff000 = 0 →
          (__runtime_fixup_32 0x89abd537 0xdef50513 0x7ff).1 = 0x00000013) ∧
        (lower_immediate 0x7ff &&& 0x00000fff = 0 →
          (__runtime_fixup_32 0x89abd537 0xdef50513 0x7ff).2 = 0x00000013) ∧
        decode_lui_addi (__runtime_fixup_32 0x89abd537 0xdef50513 0x7ff).1
          (__runtime_fixup_32 0x89abd537 0xdef50513 0x7ff).2 = 0x7ff)) ∧
    ((0x1000 : Nat) < 2 ^ 32 ∧ lower_immediate 0x1000 &&& 0x00000fff = 0 ∧
      ((upper_immediate 0x1000 &&& 0xfffff000 = 0 →
          (__runtime_fixup_32 0x89abd537 0xdef50513 0x1000).1 = 0x00000013) ∧
        (lower_immediate 0x1000 &&& 0x00000fff = 0 →
          (__runtime_fixup_32 0x89abd537 0xdef50513 0x1000).2 = 0x00000013) ∧
        decode_lui_addi (__runtime_fixup_32 0x89abd537 0xdef50513 0x1000).1
          (__runtime_fixup_32 0x89abd537 0xdef50513 0x1000).2 = 0x1000)) :=
  ⟨⟨by decide, by decide, C7_fixup_32_nop 0x89abd537 0xdef50513 0x7ff (by decide)⟩,
    ⟨by decide, by decide, C7_fixup_32_nop 0x89abd537 0xdef50513 0x1000 (by decide)⟩⟩

/-- C10: whenever a slot is not replaced by a nop its non-immediate
fields survive the patch: a nonzero upper immediate leaves the low 12
bits of the lui word unchanged, and a nonzero lower immediate leaves the
low 20 bits of the addi word unchanged. -/
theorem C10_fixup_32_frame (lui_insn addi_insn val : Nat) :
    (upper_immediate val ≠ 0 →
      (__runtime_fixup_32 lui_insn addi_insn val).1 % 2 ^ 12 = lui_insn % 2 ^ 12) ∧
    (lower_immediate val ≠ 0 →
      (__runtime_fixup_32 lui_insn addi_insn val).2 % 2 ^ 20 = addi_insn % 2 ^ 20) := by
  constructor
  · intro h
    show fixup_32_lui lui_insn val % 2 ^ 12 = lui_insn % 2 ^ 12
    rw [fixup_32_lui_eq, if_neg h]
    have := upper_mod_4096 val
    omega
  · intro h
    have hlow : lower_immediate val =
        if val / 2 ^ 11 % 2 = 1 then val % 2 ^ 12 + 0xfffff000 else val % 2 ^ 12 :=
      sign_extend32_11_eq val
    have h12 : val % 2 ^ 12 ≠ 0 := by split_ifs at hlow <;> omega
    show fixup_32_addi addi_insn val % 2 ^ 20 = addi_insn % 2 ^ 20
    rw [fixup_32_addi_eq, if_neg h12]
    omega

/-- Witness for C10 at a value whose upper and lower immediates are both
nonzero, over the placeholder lui/addi words. -/
theorem C10_fixup_32_frame_witness :
    upper_immediate 0x12345678 ≠ 0 ∧ lower_immediate 0x12345678 ≠ 0 ∧
    ((upper_immediate 0x12345678 ≠ 0 →
        (__runtime_fixup_32 0x89abd537 0xdef50513 0x12345678).1 % 2 ^ 12
          = 0x89abd537 % 2 ^ 12) ∧
      (lower_immediate 0x12345678 ≠ 0 →
        (__runtime_fixup_32 0x89abd537 0xdef50513 0x12345678).2 % 2 ^ 20
          = 0xdef50513 % 2 ^ 20)) :=
  ⟨by decide, by decide, C10_fixup_32_frame 0x89abd537 0xdef50513 0x12345678⟩

/-- C2: on a wide target __runtime_fixup_ptr writes two independent
lui/addi pairs, the words at byte offsets 0 and 8 encoding the low 32
bits of v and the words at byte offsets 4 and 12 encoding the high 32
bits, and recombining the two independently decoded halves as
(high <<< 32) ||| low gives back v. -/
theorem C2_fixup_ptr_roundtrip (w0 w4 w8 w12 val : Nat) (hval : val < 2 ^ 64) :
    decode_lui_addi (__runtime_fixup_ptr w0 w4 w8 w12 val).2.1
        (__runtime_fixup_ptr w0 w4 w8 w12 val).2.2.2 <<< 32 |||
      decode_lui_addi (__runtime_fixup_ptr w0 w4 w8 w12 val).1
        (__runtime_fixup_ptr w0 w4 w8 w12 val).2.2.1 = val := by
  have h1 := decode_fixup_32 w0 w8 (val % 2 ^ 32) (Nat.mod_lt _ (by norm_num))
  have h2 := decode_fixup_32 w4 w12 (val >>> 32 % 2 ^ 32) (Nat.mod_lt _ (by norm_num))
  show decode_lui_addi (fixup_32_lui w4 (val >>> 32 % 2 ^ 32))
        (fixup_32_addi w12 (val >>> 32 % 2 ^ 32)) <<< 32 |||
      decode_lui_addi (fixup_32_lui w0 (val % 2 ^ 32))
        (fixup_32_addi w8 (val % 2 ^ 32)) = val
  rw [h1, h2, Nat.shiftLeft_eq, Nat.lor_comm,
    or_small_mul _ _ _ (Nat.mod_lt val (by norm_num)), Nat.shiftRight_eq_div_pow]
  omega

/-- Witness for C2 at the concrete pointer value of the spec scenario,
0x0000000123456789, over the four placeholder words of
runtime_const_ptr (lui a0 / lui a1 / addiw a0 / addiw a1). -/
theorem C2_fixup_ptr_roundtrip_witness :
    (0x123456789 : Nat) < 2 ^ 64 ∧
    decode_lui_addi (__runtime_fixup_ptr 0x89abd537 0x012345b7 0xdef50513 0x5675859b
          0x123456789).2.1
        (__runtime_fixup_ptr 0x89abd537 0x012345b7 0xdef50513 0x5675859b
          0x123456789).2.2.2 <<< 32 |||
      decode_lui_addi (__runtime_fixup_ptr 0x89abd537 0x012345b7 0xdef50513 0x5675859b
          0x123456789).1
        (__runtime_fixup_ptr 0x89abd537 0x012345b7 0xdef50513 0x5675859b
          0x123456789).2.2.1 = 0x123456789 :=
  ⟨by decide, C2_fixup_ptr_roundtrip 0x89abd537 0x012345b7 0xdef50513 0x5675859b
    0x123456789 (by decide)⟩

/-- C3: for every shift amount s in [0, 63] and every 32-bit instruction
word w, the shift fixup stores exactly s &&& 0x1f in bits 20-24 of the
word and leaves every bit outside bits 20-24 unchanged. -/
theorem C3_fixup_shift (w s : Nat) (hs : s ≤ 63) (hw : w < 2 ^ 32) :
    (__runtime_fixup_shift w s >>> 20) &&& 0b11111 = s &&& 0b11111 ∧
    ∀ i, i < 20 ∨ 25 ≤ i → (__runtime_fixup_shift w s).testBit i = w.testBit i := by
  constructor
  · apply Nat.eq_of_testBit_eq
    intro j
    unfold __runtime_fixup_shift
    have h5 : (0b11111 : Nat) = 2 ^ 5 - 1 := by norm_num
    rw [h5]
    simp only [Nat.testBit_and, Nat.testBit_shiftRight, Nat.testBit_or,
      Nat.testBit_shiftLeft, Nat.testBit_two_pow_sub_one, testBit_fe0fffff]
    by_cases hj : j < 5
    · have h1 : ¬ 20 + j < 20 := by omega
      have h2 : ¬ (25 ≤ 20 + j ∧ 20 + j < 32) := by omega
      have h3 : 20 ≤ 20 + j := by omega
      have h4 : 20 + j - 20 = j := by omega
      simp [h1, h2, h3, h4, hj]
    · simp [hj]
  · intro i hi
    unfold __runtime_fixup_shift
    rw [Nat.testBit_or, Nat.testBit_and, testBit_fe0fffff, Nat.testBit_shiftLeft]
    rcases hi with h | h
    · have h1 : ¬ (25 ≤ i ∧ i < 32) := by omega
      have h2 : ¬ 20 ≤ i := by omega
      simp [h, h1, h2]
    · have h3 : (s &&& 0b11111).testBit (i - 20) = false := by
        apply Nat.testBit_lt_two_pow
        have ha := and_11111_lt s
        have hb : (32 : Nat) ≤ 2 ^ (i - 20) :=
          le_trans (by norm_num : (32 : Nat) ≤ 2 ^ 5)
            (Nat.pow_le_pow_right (by norm_num) (by omega))
        omega
      by_cases h32 : i < 32
      · have h1 : ¬ i < 20 := by omega
        have h2 : 25 ≤ i ∧ i < 32 := ⟨h, h32⟩
        simp [h1, h2, h3]
      · have hw' : w.testBit i = false :=
          Nat.testBit_lt_two_pow
            (Nat.lt_of_lt_of_le hw (Nat.pow_le_pow_right (by norm_num) (by omega)))
        have h1 : ¬ i < 20 := by omega
        have h2 : ¬ (25 ≤ i ∧ i < 32) := by omega
        simp [h1, h2, h3, hw']

/-- Witness for C3 at s = 63 (a value whose truncation to 5 bits is
proper) over the actual srli a0, a0, 12 placeholder word 0x00c55513. -/
theorem C3_fixup_shift_witness :
    (63 : Nat) ≤ 63 ∧ (0x00c55513 : Nat) < 2 ^ 32 ∧
    ((__runtime_fixup_shift 0x00c55513 63 >>> 20) &&& 0b11111 = 63 &&& 0b11111 ∧
      ∀ i, i < 20 ∨ 25 ≤ i →
        (__runtime_fixup_shift 0x00c55513 63).testBit i = (0x00c55513 : Nat).testBit i) :=
  ⟨by decide, by decide, C3_fixup_shift 0x00c55513 63 (by decide) (by decide)⟩

/-! ### Theorems on the table walk -/

theorem runtime_const_fixup_length (mem : Int → Int) (val : Nat) :
    ∀ (n : Nat) (start : Int), (runtime_const_fixup mem val start n).length = n := by
  intro n
  induction n with
  | zero => intro start; rfl
  | succ n ih =>
    intro start
    simp only [runtime_const_fixup, List.length_cons, ih]

theorem runtime_const_fixup_getElem (mem : Int → Int) (val : Nat) :
    ∀ (n : Nat) (start : Int) (i : Nat), i < n →
      (runtime_const_fixup mem val start n)[i]? =
        some (start + 4 * i + mem (start + 4 * i), val) := by
  intro n
  induction n with
  | zero => intro start i hi; omega
  | succ n ih =>
    intro start i hi
    match i with
    | 0 =>
      simp only [runtime_const_fixup, List.getElem?_cons_zero, Nat.cast_zero]
      norm_num
    | j + 1 =>
      simp only [runtime_const_fixup, List.getElem?_cons_succ]
      have ha : start + 4 * ((j + 1 : Nat) : Int) = start + 4 + 4 * (j : Int) := by
        push_cast
        ring
      rw [ha]
      exact ih (start + 4) j (by omega)

/-- C8: the table walk touches each record in [start, end) exactly once,
in table order, fixing up the absolute address record_location +
record_value, and touches nothing when start is not below end. -/
theorem C8_runtime_const_fixup (mem : Int → Int) (val : Nat) (start send : Int) (n : Nat)
    (hend : send = start + 4 * n) :
    (runtime_const_fixup mem val start n).length = n ∧
    (∀ i, i < n → (runtime_const_fixup mem val start n)[i]? =
      some (start + 4 * i + mem (start + 4 * i), val)) ∧
    (¬ start < send → runtime_const_fixup mem val start n = []) := by
  refine ⟨runtime_const_fixup_length mem val n start,
    fun i hi => runtime_const_fixup_getElem mem val n start i hi, fun h => ?_⟩
  match n with
  | 0 => rfl
  | m + 1 =>
    exfalso
    apply h
    have : ((m : Int) + 1) > 0 := by positivity
    omega

/-- Witness for C8 on a two-record table at address 1000 whose records
hold the self-relative offsets -100 and 8: the walk yields exactly the
two sites 1000 - 100 and 1004 + 8, in table order. -/
theorem C8_runtime_const_fixup_witness :
    ((1008 : Int) = 1000 + 4 * (2 : Nat)) ∧
    (runtime_const_fixup (fun a => if a = 1000 then -100 else 8) 77 1000 2).length = 2 ∧
    runtime_const_fixup (fun a => if a = 1000 then -100 else 8) 77 1000 2
      = [(900, 77), (1012, 77)] :=
  ⟨by decide,
    (C8_runtime_const_fixup (fun a => if a = 1000 then -100 else 8) 77 1000 1008 2
      (by decide)).1,
    by decide⟩

/-! ### Theorems on the errata dispatcher -/

theorem apply_writes_frame (a : Nat) :
    ∀ (ws : List (Nat × Nat × Nat)) (mem : Nat → Nat),
      (∀ w ∈ ws, ¬ (w.1 ≤ a ∧ a < w.1 + w.2.2)) → apply_writes mem ws a = mem a := by
  intro ws
  induction ws with
  | nil => intro mem h; rfl
  | cons w ws ih =>
    intro mem h
    show apply_writes (patch_text_nosync mem w.1 w.2.1 w.2.2) ws a = mem a
    rw [ih _ fun x hx => h x (List.mem_cons_of_mem _ hx)]
    unfold patch_text_nosync
    rw [if_neg (h w (List.mem_cons_self _ _))]

/-- The writes of one loop run are exactly the valid matching records, in
table order, each mapped to its (ALT_OLD_PTR, ALT_ALT_PTR, alt_len)
write. -/
theorem mips_errata_loop_writes (vid N : Nat) (table : List alt_entry) :
    (mips_errata_loop vid N table).writes =
      (table.filter fun a => decide (a.vendor_id = vid ∧ a.patch_id < N)).map
        fun a => (a.old_ptr, a.alt_ptr, a.alt_len) := by
  induction table with
  | nil => rfl
  | cons alt rest ih =>
    simp only [mips_errata_loop, List.filter_cons]
    by_cases h1 : alt.vendor_id = vid
    · by_cases h2 : alt.patch_id < N
      · have hd : decide (alt.vendor_id = vid ∧ alt.patch_id < N) = true := by
          simp [h1, h2]
        rw [if_neg (fun hc => hc h1), if_neg (by omega), hd, if_pos rfl]
        simp [ih]
      · have hd : decide (alt.vendor_id = vid ∧ alt.patch_id < N) = false := by
          simp [h2]
        rw [if_neg (fun hc => hc h1), if_pos (by omega), hd]
        simp [ih]
    · have hd : decide (alt.vendor_id = vid ∧ alt.patch_id < N) = false := by
        simp [h1]
      rw [if_pos h1, hd]
      simp [ih]

/-- The warnings of one loop run are exactly the matching records whose
erratum index is out of range, in table order. -/
theorem mips_errata_loop_warns (vid N : Nat) (table : List alt_entry) :
    (mips_errata_loop vid N table).warns =
      (table.filter fun a => decide (a.vendor_id = vid ∧ N ≤ a.patch_id)).map
        fun a => a.patch_id := by
  induction table with
  | nil => rfl
  | cons alt rest ih =>
    simp only [mips_errata_loop, List.filter_cons]
    by_cases h1 : alt.vendor_id = vid
    · by_cases h2 : N ≤ alt.patch_id
      · have hd : decide (alt.vendor_id = vid ∧ N ≤ alt.patch_id) = true := by
          simp [h1, h2]
        rw [if_neg (fun hc => hc h1), if_pos h2, hd, if_pos rfl]
        simp [ih]
      · have hd : decide (alt.vendor_id = vid ∧ N ≤ alt.patch_id) = false := by
          simp [h2]
        rw [if_neg (fun hc => hc h1), if_neg h2, hd]
        simp [ih]
    · have hd : decide (alt.vendor_id = vid ∧ N ≤ alt.patch_id) = false := by
        simp [h1]
      rw [if_pos h1, hd]
      simp [ih]

/-- C4: at a non-early-boot stage the dispatcher performs exactly one
write per vendor-matching record with a valid erratum index — in table
order, each replacing the record's original block at ALT_OLD_PTR with
alt_len bytes of its replacement block — and the text bytes of every
address outside the matching records' target ranges are byte-for-byte
unmodified. -/
theorem C4_dispatch_matching (vid N eb : Nat) (table : List alt_entry)
    (archid impid stage : Nat) (hstage : stage ≠ eb) :
    (mips_errata_patch_func vid N eb table archid impid stage).writes =
      (table.filter fun a => decide (a.vendor_id = vid ∧ a.patch_id < N)).map
        (fun a => (a.old_ptr, a.alt_ptr, a.alt_len)) ∧
    ∀ (mem : Nat → Nat) (addr : Nat),
      (∀ e ∈ table, e.vendor_id = vid → e.patch_id < N →
        ¬ (e.old_ptr ≤ addr ∧ addr < e.old_ptr + e.alt_len)) →
      apply_writes mem (mips_errata_patch_func vid N eb table archid impid stage).writes addr
        = mem addr := by
  have hw : (mips_errata_patch_func vid N eb table archid impid stage).writes =
      (table.filter fun a => decide (a.vendor_id = vid ∧ a.patch_id < N)).map
        (fun a => (a.old_ptr, a.alt_ptr, a.alt_len)) := by
    unfold mips_errata_patch_func
    rw [if_neg hstage]
    exact mips_errata_loop_writes vid N table
  refine ⟨hw, fun mem addr hout => ?_⟩
  rw [hw]
  apply apply_writes_frame
  intro w hwmem
  rcases List.mem_map.mp hwmem with ⟨e, he, rfl⟩
  rcases List.mem_filter.mp he with ⟨het, hcond⟩
  have hce := of_decide_eq_true hcond
  exact hout e het hce.1 hce.2

/-- C5: at the early-boot stage the dispatcher returns immediately,
performing no write and no warning, whatever the table and identity. -/
theorem C5_dispatch_early_boot (vid N eb : Nat) (table : List alt_entry)
    (archid impid stage : Nat) (hstage : stage = eb) :
    mips_errata_patch_func vid N eb table archid impid stage = ⟨[], []⟩ := by
  unfold mips_errata_patch_func
  rw [if_pos hstage]

/-- C6: a vendor-matching record whose erratum index is out of range
contributes exactly one warning and no write, and the remaining records
of the table are processed exactly as if the bad record were absent. -/
theorem C6_dispatch_bad_id (vid N eb : Nat) (t1 t2 : List alt_entry) (r : alt_entry)
    (archid impid stage : Nat) (hstage : stage ≠ eb)
    (hvendor : r.vendor_id = vid) (hid : N ≤ r.patch_id) :
    (mips_errata_patch_func vid N eb (t1 ++ r :: t2) archid impid stage).writes =
      (mips_errata_patch_func vid N eb (t1 ++ t2) archid impid stage).writes ∧
    (mips_errata_patch_func vid N eb (t1 ++ r :: t2) archid impid stage).warns =
      (mips_errata_patch_func vid N eb t1 archid impid stage).warns ++
        r.patch_id :: (mips_errata_patch_func vid N eb t2 archid impid stage).warns := by
  unfold mips_errata_patch_func
  simp only [if_neg hstage]
  constructor
  · rw [mips_errata_loop_writes, mips_errata_loop_writes]
    have hd : decide (r.vendor_id = vid ∧ r.patch_id < N) = false := by
      simp only [decide_eq_false_iff_not]
      omega
    simp only [List.filter_append, List.filter_cons, hd, List.map_append]
    simp
  · rw [mips_errata_loop_warns, mips_errata_loop_warns, mips_errata_loop_warns]
    have hd : decide (r.vendor_id = vid ∧ N ≤ r.patch_id) = true := by
      simp [hvendor, hid]
    simp only [List.filter_append, List.filter_cons, hd, List.map_append]
    simp

/-- Witness for C4 on a three-record table: two records match vendor 5
with valid indices (bounded by errata count 2) and one carries vendor 6;
dispatched at stage 0 (with early boot being stage 2) the writes are
exactly the two matching sites, and the byte at address 300, inside the
non-matching record's block, is untouched by the write sequence. -/
theorem C4_dispatch_matching_witness :
    (0 : Nat) ≠ 2 ∧
    ((mips_errata_patch_func 5 2 2
        [⟨100, 200, 5, 0, 8⟩, ⟨300, 400, 6, 0, 4⟩, ⟨500, 600, 5, 1, 4⟩] 7 9 0).writes =
      (([⟨100, 200, 5, 0, 8⟩, ⟨300, 400, 6, 0, 4⟩, ⟨500, 600, 5, 1, 4⟩] :
          List alt_entry).filter
        fun a => decide (a.vendor_id = 5 ∧ a.patch_id < 2)).map
        (fun a => (a.old_ptr, a.alt_ptr, a.alt_len)) ∧
      ∀ (mem : Nat → Nat) (addr : Nat),
        (∀ e ∈ ([⟨100, 200, 5, 0, 8⟩, ⟨300, 400, 6, 0, 4⟩, ⟨500, 600, 5, 1, 4⟩] :
            List alt_entry), e.vendor_id = 5 → e.patch_id < 2 →
          ¬ (e.old_ptr ≤ addr ∧ addr < e.old_ptr + e.alt_len)) →
        apply_writes mem
          (mips_errata_patch_func 5 2 2
            [⟨100, 200, 5, 0, 8⟩, ⟨300, 400, 6, 0, 4⟩, ⟨500, 600, 5, 1, 4⟩] 7 9 0).writes
          addr = mem addr) :=
  ⟨by decide,
    C4_dispatch_matching 5 2 2
      [⟨100, 200, 5, 0, 8⟩, ⟨300, 400, 6, 0, 4⟩, ⟨500, 600, 5, 1, 4⟩] 7 9 0 (by decide)⟩

/-- Witness for C5: the same table dispatched at the early-boot stage
value 2 produces no writes and no warnings. -/
theorem C5_dispatch_early_boot_witness :
    (2 : Nat) = 2 ∧
    mips_errata_patch_func 5 2 2
      [⟨100, 200, 5, 0, 8⟩, ⟨300, 400, 6, 0, 4⟩, ⟨500, 600, 5, 1, 4⟩] 7 9 2 = ⟨[], []⟩ :=
  ⟨rfl,
    C5_dispatch_early_boot 5 2 2
      [⟨100, 200, 5, 0, 8⟩, ⟨300, 400, 6, 0, 4⟩, ⟨500, 600, 5, 1, 4⟩] 7 9 2 rfl⟩

/-- Witness for C6: a record with matching vendor 5 but erratum index 7,
beyond the errata count 2, sandwiched between two valid matching records,
yields the same writes as the table without it and exactly one warning
carrying index 7. -/
theorem C6_dispatch_bad_id_witness :
    (0 : Nat) ≠ 2 ∧ (alt_entry.mk 900 950 5 7 4).vendor_id = 5 ∧
    2 ≤ (alt_entry.mk 900 950 5 7 4).patch_id ∧
    ((mips_errata_patch_func 5 2 2
        ([⟨100, 200, 5, 0, 8⟩] ++ ⟨900, 950, 5, 7, 4⟩ :: [⟨500, 600, 5, 1, 4⟩]) 7 9 0).writes =
      (mips_errata_patch_func 5 2 2
        ([⟨100, 200, 5, 0, 8⟩] ++ [⟨500, 600, 5, 1, 4⟩]) 7 9 0).writes ∧
    (mips_errata_patch_func 5 2 2
        ([⟨100, 200, 5, 0, 8⟩] ++ ⟨900, 950, 5, 7, 4⟩ :: [⟨500, 600, 5, 1, 4⟩]) 7 9 0).warns =
      (mips_errata_patch_func 5 2 2 [⟨100, 200, 5, 0, 8⟩] 7 9 0).warns ++
        (alt_entry.mk 900 950 5 7 4).patch_id ::
          (mips_errata_patch_func 5 2 2 [⟨500, 600, 5, 1, 4⟩] 7 9 0).warns) :=
  ⟨by decide, by decide, by decide,
    C6_dispatch_bad_id 5 2 2 [⟨100, 200, 5, 0, 8⟩] [⟨500, 600, 5, 1, 4⟩]
      ⟨900, 950, 5, 7, 4⟩ 7 9 0 (by decide) (by decide) (by decide)⟩

/-- C9: the observable behaviour of the dispatcher never depends on the
archid and impid arguments — two runs over the same table, vendor
constants and stage produce identical writes and warnings whatever those
two arguments are. -/
theorem C9_dispatch_ignores_archid_impid (vid N eb : Nat) (table : List alt_entry)
    (archid impid archid2 impid2 stage : Nat) :
    mips_errata_patch_func vid N eb table archid impid stage =
      mips_errata_patch_func vid N eb table archid2 impid2 stage := rfl

end RiscvPatch

